import Mathlib

/-!
Verification of the cocotb regression orchestrator (`src/cocotb/regression.py`)
against its natural-language specification.

The Python module is shallowly embedded: the `RegressionManager`'s mutable
object state becomes an explicit `RMState` record threaded through pure
functions, one per method of the source.  External collaborators (the task
scheduler, the simulated-time source, the `hashlib`/`re`/`random` standard
library modules and the xunit file writer) are modelled at their boundary:
outcomes, per-test wall/simulated durations and the cryptographic hash are
supplied by an `Oracle` record of functions, regex patterns are modelled as
their match predicates, and side effects (writing the xunit file, stopping
the simulator, emitting the summary) become counters in the state.

Python exception instances are modelled by the class they belong to.  The
classes that `_score_test` inspects (`TestSuccess`, `SimFailure`,
`AssertionError`, the pytest `Failed` class) each subclass only `Exception`
in the flat part of the hierarchy this module relies on, so `isinstance`
becomes: same class, or the target is `Exception`.
-/

namespace Cocotb

/-- Exception classes visible to `_score_test`.  `exceptionBase` stands for
Python's `Exception`; `valueError`/`typeError` are sample ordinary error
kinds usable in `expect_error` declarations. -/
inductive ExcKind where
  | testSuccess
  | simFailure
  | assertionError
  | pytestFailed
  | valueError
  | typeError
  | exceptionBase
deriving DecidableEq, Repr

/-- `isinstance(inst, target)` for an instance of class `inst`:
true when the classes coincide or the target is `Exception`. -/
def isInstance (inst target : ExcKind) : Bool :=
  inst == target || target == ExcKind.exceptionBase

/-- `isinstance(inst, tuple_of_classes)`: Python checks against a tuple of
declared classes; the empty tuple matches nothing. -/
def isInstanceAny (inst : ExcKind) (targets : List ExcKind) : Bool :=
  targets.any (fun t => isInstance inst t)

/-- The outcome of one completed test handed back by the scheduler:
the body either returned (`value`) or raised an exception (`error`).
(`cocotb._outcomes.Outcome` restricted to what `_score_test` observes.) -/
inductive Outcome where
  | value
  | error (e : ExcKind)
deriving DecidableEq, Repr

/-- `cocotb.regression.Test`: the immutable descriptor of one registered
test.  `_id` is the construction-order counter value.  The callable body,
doc string and timeout wrapper are not needed by any claim under
verification and are represented only through the `Oracle` functions. -/
structure Test where
  name : String
  module : String
  expect_fail : Bool
  expect_error : List ExcKind
  skip : Bool
  stage : Int
  _id : Nat
deriving DecidableEq, Repr

/-- `Test.fullname = f"{self.module}.{self.name}"`. -/
def Test.fullname (t : Test) : String :=
  t.module ++ "." ++ t.name

/-- The sort key used by `start_regression`:
`self._test_queue.sort(key=lambda test: (test.stage, test._id))`. -/
def test_sort_key (t : Test) : Int × Nat :=
  (t.stage, t._id)

/-- Strict lexicographic order on `(stage, id)` keys. -/
def keyLT (a b : Int × Nat) : Prop :=
  a.1 < b.1 ∨ (a.1 = b.1 ∧ a.2 < b.2)

/-- Non-strict lexicographic order on `(stage, id)` keys (the order realised
by Python's stable tuple-keyed sort). -/
def keyLE (a b : Int × Nat) : Prop :=
  a.1 < b.1 ∨ (a.1 = b.1 ∧ a.2 ≤ b.2)

/-- Comparison of two tests by their sort keys. -/
def testLE (t1 t2 : Test) : Prop :=
  keyLE (test_sort_key t1) (test_sort_key t2)

instance : DecidableRel keyLT := fun a b => by
  unfold keyLT; infer_instance

instance : DecidableRel keyLE := fun a b => by
  unfold keyLE; infer_instance

instance : DecidableRel testLE := fun t1 t2 => by
  unfold testLE; infer_instance

instance : IsTotal Test testLE where
  total t1 t2 := by
    unfold testLE keyLE
    rcases Int.lt_trichotomy (test_sort_key t1).1 (test_sort_key t2).1 with h | h | h
    · exact Or.inl (Or.inl h)
    · rcases Nat.le_total (test_sort_key t1).2 (test_sort_key t2).2 with h2 | h2
      · exact Or.inl (Or.inr ⟨h, h2⟩)
      · exact Or.inr (Or.inr ⟨h.symm, h2⟩)
    · exact Or.inr (Or.inl h)

instance : IsTrans Test testLE where
  trans t1 t2 t3 h12 h23 := by
    unfold testLE keyLE at *
    rcases h12 with h12 | ⟨e12, l12⟩
    · rcases h23 with h23 | ⟨e23, _⟩
      · exact Or.inl (lt_trans h12 h23)
      · exact Or.inl (e23 ▸ h12)
    · rcases h23 with h23 | ⟨e23, l23⟩
      · exact Or.inl (e12 ▸ h23)
      · exact Or.inr ⟨e12.trans e23, le_trans l12 l23⟩

/-- `_score_test`: classify a completed outcome against the test's declared
expectations.  Returns `(result_pass, sim_failed)`.  The body mirrors the
`if`/`elif` chain of the source: a raised `TestSuccess` is folded into the
success case first (`result = TestSuccess()` when nothing was raised), then
`SimFailure`, then assertion-style failures under `expect_fail`, then the
declared `expect_error` kinds, then the default failure case. -/
def _score_test (t : Test) (o : Outcome) : Bool × Bool :=
  let result : ExcKind :=
    match o with
    | Outcome.value => ExcKind.testSuccess
    | Outcome.error e => e
  if isInstance result ExcKind.testSuccess = true ∧ t.expect_fail = false ∧
      t.expect_error = [] then
    (true, false)
  else if isInstance result ExcKind.testSuccess = true ∧ t.expect_error ≠ [] then
    (false, false)
  else if isInstance result ExcKind.testSuccess = true then
    (false, false)
  else if isInstance result ExcKind.simFailure = true then
    (if isInstanceAny result t.expect_error = true then (true, true) else (false, true))
  else if (isInstance result ExcKind.assertionError || isInstance result ExcKind.pytestFailed) = true
      ∧ t.expect_fail = true then
    (true, false)
  else if t.expect_error ≠ [] then
    (if isInstanceAny result t.expect_error = true then (true, false) else (false, false))
  else
    (false, false)

/-- `isinstance(result, (AssertionError, _Failed))`: the assertion-style
failure test of `_score_test`. -/
def assertionStyle (e : ExcKind) : Bool :=
  isInstance e ExcKind.assertionError || isInstance e ExcKind.pytestFailed

/-- C1.  The outcome scorer classifies a completed test against its declared
expectations exactly as the spec's table, rows matched in order.  A raised
`TestSuccess` is normalised by the code into the success case, so "raised
failure" below means a raised exception not classified as success.  The
clauses, in the table's row order: success with no expectations → PASS;
success with `expect_fail` or a declared `expect_error` → FAIL; assertion-
style failure with `expect_fail` → PASS; assertion-style failure without
`expect_fail` and no declared kinds → FAIL; a raised failure matching a
declared kind → PASS; with declared kinds, a raised failure of any other
kind → FAIL (the earlier assertion-style row having already claimed the
`expect_fail=true` assertion failures). -/
theorem score_test_matches_spec_table (t : Test) (e : ExcKind) :
    ((t.expect_fail = false ∧ t.expect_error = []) →
      _score_test t Outcome.value = (true, false))
    ∧ ((t.expect_fail = true ∨ t.expect_error ≠ []) →
      (_score_test t Outcome.value).1 = false)
    ∧ (assertionStyle e = true → t.expect_fail = true →
      (_score_test t (Outcome.error e)).1 = true)
    ∧ (assertionStyle e = true → t.expect_fail = false → t.expect_error = [] →
      (_score_test t (Outcome.error e)).1 = false)
    ∧ (isInstance e ExcKind.testSuccess = false → isInstanceAny e t.expect_error = true →
      (_score_test t (Outcome.error e)).1 = true)
    ∧ (t.expect_error ≠ [] → isInstance e ExcKind.testSuccess = false →
      isInstanceAny e t.expect_error = false →
      ¬(assertionStyle e = true ∧ t.expect_fail = true) →
      (_score_test t (Outcome.error e)).1 = false) := by
  refine ⟨?_, ?_, ?_, ?_, ?_, ?_⟩
  · rintro ⟨hf, he⟩
    simp [_score_test, isInstance, hf, he]
  · rintro h
    rcases h with hf | he
    · cases he : t.expect_error with
      | nil => simp [_score_test, isInstance, hf, he]
      | cons a l => simp [_score_test, isInstance, hf, he]
    · simp [_score_test, isInstance, he]
  · intro ha hf
    cases e <;> simp_all [_score_test, assertionStyle, isInstance]
  · intro ha hf he
    cases e <;> simp_all [_score_test, assertionStyle, isInstance, isInstanceAny]
  · intro hs hm
    have hne : t.expect_error ≠ [] := by
      intro h; rw [h] at hm; simp [isInstanceAny] at hm
    cases e <;> simp_all [_score_test, assertionStyle, isInstance]
  · intro hne hs hm hna
    cases e <;> simp_all [_score_test, assertionStyle, isInstance]

/-- Witness for C1: concrete instantiations of every clause. -/
theorem score_test_matches_spec_table_witness :
    (_score_test ⟨"t", "m", false, [], false, 0, 0⟩ Outcome.value = (true, false))
    ∧ ((_score_test ⟨"t", "m", true, [], false, 0, 0⟩ Outcome.value).1 = false)
    ∧ ((_score_test ⟨"t", "m", true, [], false, 0, 0⟩
        (Outcome.error ExcKind.assertionError)).1 = true)
    ∧ ((_score_test ⟨"t", "m", false, [], false, 0, 0⟩
        (Outcome.error ExcKind.assertionError)).1 = false)
    ∧ ((_score_test ⟨"t", "m", false, [ExcKind.valueError], false, 0, 0⟩
        (Outcome.error ExcKind.valueError)).1 = true)
    ∧ ((_score_test ⟨"t", "m", false, [ExcKind.valueError], false, 0, 0⟩
        (Outcome.error ExcKind.typeError)).1 = false) :=
  ⟨(score_test_matches_spec_table ⟨"t", "m", false, [], false, 0, 0⟩
      ExcKind.assertionError).1 ⟨rfl, rfl⟩,
   (score_test_matches_spec_table ⟨"t", "m", true, [], false, 0, 0⟩
      ExcKind.assertionError).2.1 (Or.inl rfl),
   (score_test_matches_spec_table ⟨"t", "m", true, [], false, 0, 0⟩
      ExcKind.assertionError).2.2.1 (by decide) rfl,
   (score_test_matches_spec_table ⟨"t", "m", false, [], false, 0, 0⟩
      ExcKind.assertionError).2.2.2.1 (by decide) rfl rfl,
   (score_test_matches_spec_table ⟨"t", "m", false, [ExcKind.valueError], false, 0, 0⟩
      ExcKind.valueError).2.2.2.2.1 (by decide) (by decide),
   (score_test_matches_spec_table ⟨"t", "m", false, [ExcKind.valueError], false, 0, 0⟩
      ExcKind.typeError).2.2.2.2.2 (by decide) (by decide) (by decide)
      (by intro h; exact absurd h.1 (by decide))⟩

/-- C10.  `expect_fail=true` rescues only assertion-style failures: any
raised failure that is neither a fatal `SimFailure` nor assertion-style
(nor a raised `TestSuccess`, which the code folds into success), with an
empty `expect_error` set, is classified FAIL with `fatal=false` no matter
the value of `expect_fail`. -/
theorem expect_fail_rescues_only_assertions (t : Test) (e : ExcKind)
    (hsucc : isInstance e ExcKind.testSuccess = false)
    (hfatal : isInstance e ExcKind.simFailure = false)
    (hassert : assertionStyle e = false)
    (hempty : t.expect_error = []) :
    _score_test t (Outcome.error e) = (false, false) := by
  cases e <;> simp_all [_score_test, assertionStyle, isInstance]

/-- Witness for C10: raising a `ValueError` with `expect_fail=true` and no
declared error kinds is still a non-fatal FAIL. -/
theorem expect_fail_rescues_only_assertions_witness :
    _score_test ⟨"t", "m", true, [], false, 0, 0⟩ (Outcome.error ExcKind.valueError)
      = (false, false) :=
  expect_fail_rescues_only_assertions ⟨"t", "m", true, [], false, 0, 0⟩
    ExcKind.valueError (by decide) (by decide) (by decide) rfl

/-- Result of `_safe_divide`: a finite quotient, or the NaN / +inf values
produced on division by zero. -/
inductive RatioVal where
  | num (q : Rat)
  | nan
  | inf
deriving DecidableEq, Repr

/-- `_safe_divide(a, b)`: `a / b`, with `0/0 → NaN` and `x/0 → +inf`
(Python raises `ZeroDivisionError` for float division by zero). -/
def _safe_divide (a b : Rat) : RatioVal :=
  if b = 0 then (if a = 0 then RatioVal.nan else RatioVal.inf)
  else RatioVal.num (a / b)

/-- Marker attached to an xunit testcase after `add_testcase`:
`add_skipped` or `add_failure`. -/
inductive XunitMarker where
  | skipped
  | failure
deriving DecidableEq, Repr

/-- One `add_testcase` record in the xunit report (file path and line
number delegated to `inspect` are omitted). -/
structure XunitRecord where
  name : String
  classname : String
  time : Rat
  sim_time_ns : Rat
  ratio_time : RatioVal
  marker : Option XunitMarker
deriving DecidableEq, Repr

/-- One entry of `self._test_results`.  `pass?` is the dict's `"pass"` key
(`none` models Python's `None` for skipped tests); skipped entries carry no
`"ratio"` key. -/
structure TestResultEntry where
  test : String
  pass? : Option Bool
  sim : Rat
  real : Rat
  ratio : Option RatioVal
deriving DecidableEq, Repr

/-- The mutable state of a `RegressionManager`, made explicit.
`summary_emitted`, `xunit_written` and `stop_signaled` count the
side-effecting calls (`_log_test_summary` output, `xunit.write()`,
`simulator.stop_simulator()`); `rng_seed` is the argument of the last
`random.seed(...)` call; `initialized` and `executed` are observation logs
of the tests whose initialization was entered (`_init_test` called) and of
the tests submitted to the scheduler (`_start_test`), in order. -/
structure RMState where
  test_queue : List Test := []
  filtered_tests : List Test := []
  tearing_down : Bool := false
  test_results : List TestResultEntry := []
  xunit_log : List XunitRecord := []
  ntests : Nat := 0
  count : Nat := 0
  passed : Nat := 0
  skipped : Nat := 0
  failures : Nat := 0
  random_seed : Nat := 0
  rng_seed : Option Nat := none
  summary_emitted : Nat := 0
  xunit_written : Nat := 0
  stop_signaled : Nat := 0
  initialized : List Test := []
  executed : List Test := []
deriving DecidableEq, Repr

/-- The xunit record written by `_record_test_excluded`: zero wall time,
zero simulated time, ratio `repr(0)`, then `add_skipped()`. -/
def excluded_record (t : Test) : XunitRecord :=
  ⟨t.name, t.module, 0, 0, RatioVal.num 0, some XunitMarker.skipped⟩

/-- The xunit record written by `_record_test_skipped` (same zero-duration
shape as an excluded record, followed by `add_skipped()`). -/
def skipped_record (t : Test) : XunitRecord :=
  ⟨t.name, t.module, 0, 0, RatioVal.num 0, some XunitMarker.skipped⟩

/-- The `_test_results` entry appended by `_record_test_skipped`
(`"pass": None`, zero times). -/
def skipped_entry (t : Test) : TestResultEntry :=
  ⟨t.fullname, none, 0, 0, none⟩

/-- The xunit record written by `_record_result`: the test's wall and
simulated durations, `ratio_time = _safe_divide(sim, wall)`, and a failure
marker exactly when `_score_test` declares the test failed. -/
def result_record (t : Test) (o : Outcome) (wall_time_s sim_time_ns : Rat) : XunitRecord :=
  ⟨t.name, t.module, wall_time_s, sim_time_ns, _safe_divide sim_time_ns wall_time_s,
    if (_score_test t o).1 then none else some XunitMarker.failure⟩

/-- The `_test_results` entry appended by `_record_result`. -/
def result_entry (t : Test) (o : Outcome) (wall_time_s sim_time_ns : Rat) : TestResultEntry :=
  ⟨t.fullname, some (_score_test t o).1, sim_time_ns, wall_time_s,
    some (_safe_divide sim_time_ns wall_time_s)⟩

/-- `_record_test_excluded`: xunit testcase with zero durations plus a
skipped marker; no `_test_results` entry and no counter changes. -/
def _record_test_excluded (st : RMState) (t : Test) : RMState :=
  { st with xunit_log := st.xunit_log ++ [excluded_record t] }

/-- `_record_test_skipped`: zero-duration xunit testcase with skipped
marker, a `"pass": None` result entry, `skipped += 1`, `count += 1`. -/
def _record_test_skipped (st : RMState) (t : Test) : RMState :=
  { st with
    xunit_log := st.xunit_log ++ [skipped_record t],
    test_results := st.test_results ++ [skipped_entry t],
    skipped := st.skipped + 1,
    count := st.count + 1 }

/-- The counter- and log-updating part of `_record_result` (everything
before the final `if sim_failed: self._tear_down()`). -/
def _record_result_core (st : RMState) (t : Test) (o : Outcome)
    (wall_time_s sim_time_ns : Rat) : RMState :=
  { st with
    xunit_log := st.xunit_log ++ [result_record t o wall_time_s sim_time_ns],
    failures := if (_score_test t o).1 then st.failures else st.failures + 1,
    passed := if (_score_test t o).1 then st.passed + 1 else st.passed,
    count := st.count + 1,
    test_results := st.test_results ++ [result_entry t o wall_time_s sim_time_ns] }

/-- The `while True` drain loop of `_tear_down`: pop each remaining queued
test and record it with outcome `Error(SimFailure)` and zero durations.
Inside this loop `self._tearing_down` is already `True`, so the recursive
`self._tear_down()` call at the end of each `_record_result` hits the latch
and returns immediately — hence the loop body is exactly
`_record_result_core` (see `record_result_eq_core_of_tearing_down`). -/
def _drain_go : List Test → RMState → RMState
  | [], st => st
  | t :: rest, st =>
      _drain_go rest
        (_record_result_core { st with test_queue := rest } t
          (Outcome.error ExcKind.simFailure) 0 0)

/-- `_log_test_summary`: emits the human-readable table unless there are no
results at all (the early `return` when `len(self._test_results) == 0`). -/
def _log_test_summary (st : RMState) : RMState :=
  if st.test_results = [] then st
  else { st with summary_emitted := st.summary_emitted + 1 }

/-- The body of `_tear_down` past the re-entrancy latch: drain the queue,
emit the summary, write the xunit report, signal the simulator to stop. -/
def _tear_down_body (st : RMState) : RMState :=
  let st1 := _drain_go st.test_queue st
  let st2 := _log_test_summary st1
  let st3 := { st2 with xunit_written := st2.xunit_written + 1 }
  { st3 with stop_signaled := st3.stop_signaled + 1 }

/-- `_tear_down`: idempotent via the `self._tearing_down` latch. -/
def _tear_down (st : RMState) : RMState :=
  if st.tearing_down then st
  else _tear_down_body { st with tearing_down := true }

/-- `_record_result`: record the scored outcome, then tear down the whole
regression if the simulator failed fatally. -/
def _record_result (st : RMState) (t : Test) (o : Outcome)
    (wall_time_s sim_time_ns : Rat) : RMState :=
  let st' := _record_result_core st t o wall_time_s sim_time_ns
  if (_score_test t o).2 then _tear_down st' else st'

/-- The per-test seed of `_init_test`:
`seed = cocotb.RANDOM_SEED + int(sha1(test.fullname).hexdigest(), 16)`.
The SHA-1 digest-as-integer is the external `hashlib` collaborator,
passed in as `hash_int`. -/
def derive_seed (hash_int : String → Nat) (random_seed : Nat) (fullname : String) : Nat :=
  random_seed + hash_int fullname

/-- The external collaborators of one regression run: per-test synchronous
initialization behaviour (`some e` = the body invocation raised `e` before
any asynchronous work), the outcome the scheduler reports for a submitted
test, the elapsed wall/simulated durations measured at its completion
callback, and the `hashlib` SHA-1 digest-as-integer function. -/
structure Oracle where
  initOutcome : Test → Option ExcKind
  runOutcome : Test → Outcome
  wallTime : Test → Rat
  simTime : Test → Rat
  hash : String → Nat

/-- `_init_test`: record a skip and produce no task if `skip` is set;
otherwise invoke the body — a synchronous failure is recorded immediately
with zero durations and produces no task; on success reseed the
process-wide random source from the global seed and the fullname hash and
produce the schedulable unit (the returned `Bool`). -/
def _init_test (o : Oracle) (st : RMState) (t : Test) : RMState × Bool :=
  let st0 := { st with initialized := st.initialized ++ [t] }
  if t.skip then
    (_record_test_skipped st0 t, false)
  else
    match o.initOutcome t with
    | some e => (_record_result st0 t (Outcome.error e) 0 0, false)
    | none =>
        ({ st0 with rng_seed := some (derive_seed o.hash st.random_seed t.fullname) },
         true)

/-- The `_execute` loop, fuelled for structural recursion (each iteration
pops one queued test, so `fuel = |queue|` suffices; the fuel-exhausted
branch is unreachable under that bound).  One iteration: pop the head (tear
down when the queue is empty), initialize it, and — when a task was
produced — submit it and handle its completion callback in one step:
append it to the `executed` log (`_start_test`), then record the oracle's
outcome and measured durations (`_handle_result`), then loop. -/
def _execute_go (o : Oracle) : Nat → RMState → RMState
  | fuel, st =>
    match st.test_queue, fuel with
    | [], _ => _tear_down st
    | _ :: _, 0 => st
    | t :: rest, fuel' + 1 =>
        let st1 := { st with test_queue := rest }
        let p := _init_test o st1 t
        if p.2 then
          let st3 := { p.1 with executed := p.1.executed ++ [t] }
          _execute_go o fuel'
            (_record_result st3 t (o.runOutcome t) (o.wallTime t) (o.simTime t))
        else
          _execute_go o fuel' p.1

/-- `_execute`, entered with exactly enough fuel for its queue. -/
def _execute (o : Oracle) (st : RMState) : RMState :=
  _execute_go o st.test_queue.length st

/-- `start_regression`: sort the queue ascending by `(stage, _id)`,
initialize the counters, record all previously excluded tests, and enter
the execution loop. -/
def start_regression (o : Oracle) (st : RMState) : RMState :=
  let sorted := List.insertionSort testLE st.test_queue
  let st1 := { st with test_queue := sorted, ntests := sorted.length, count := 1 }
  let st2 := st.filtered_tests.foldl _record_test_excluded st1
  _execute o st2

/-- `filter_tests`: keep the tests whose fullname matches at least one of
the given patterns, move the rest to `_filtered_tests`.  A regex pattern is
modelled by its `re.search` match predicate. -/
def filter_tests (patterns : List (String → Bool)) (st : RMState) : RMState :=
  let included := st.test_queue.filter (fun t => patterns.any (fun p => p t.fullname))
  let excluded := st.test_queue.filter (fun t => !patterns.any (fun p => p t.fullname))
  { st with test_queue := included, filtered_tests := excluded }

/-- `register_test`: append to the tail of the pending queue. -/
def register_test (st : RMState) (t : Test) : RMState :=
  { st with test_queue := st.test_queue ++ [t] }

/-- A referenced Python module as `discover_tests` sees it:
`none` models a module without the `__cocotb_tests__` attribute. -/
structure PyModule where
  cocotb_tests : Option (List Test)
deriving DecidableEq, Repr

/-- The two `RuntimeError`s of `discover_tests`. -/
inductive DiscoveryError where
  | noTestsInModule
  | noTestsFound
deriving DecidableEq, Repr

/-- `discover_tests`: for each module, fail if it lacks `__cocotb_tests__`,
otherwise register every exported test; after all modules, fail if the
queue is still empty.  Runs at setup, before `start_regression`. -/
def discover_tests (st : RMState) : List PyModule → Except DiscoveryError RMState
  | [] => if st.test_queue = [] then Except.error DiscoveryError.noTestsFound else Except.ok st
  | m :: rest =>
      match m.cocotb_tests with
      | none => Except.error DiscoveryError.noTestsInModule
      | some ts => discover_tests (ts.foldl register_test st) rest

/-- `"%03d" % n`: zero-padded decimal of width three. -/
def pad3 (n : Nat) : String :=
  if n < 10 then "00" ++ toString n
  else if n < 100 then "0" ++ toString n
  else toString n

/-- A `TestFactory` option key: one name, or a tuple of co-varying names. -/
inductive OptKey where
  | single (name : String)
  | group (names : List String)
deriving DecidableEq, Repr

/-- A candidate value in an optionlist: a plain value for a single-name
option, or a tuple of values for a group of co-varying names. -/
inductive OptVal (α : Type) where
  | single (v : α)
  | tuple (vs : List α)
deriving DecidableEq, Repr

/-- `TestFactory`: the test function (by qualname; constant `*args` and
`**kwargs` pass through unvaried and play no role in generation order or
naming) and the registered options — an insertion-ordered dict from option
key to optionlist, as Python dicts preserve insertion order. -/
structure TestFactory (α : Type) where
  test_function : String
  kwargs : List (OptKey × List (OptVal α)) := []
deriving DecidableEq, Repr

/-- Python dict assignment `d[k] = v`: replace in place when the key
exists (keeping its original position), else append. -/
def dictInsert {κ ν : Type} [BEq κ] : List (κ × ν) → κ → ν → List (κ × ν)
  | [], k, v => [(k, v)]
  | (k', v') :: rest, k, v =>
      if k' == k then (k, v) :: rest else (k', v') :: dictInsert rest k v

/-- `add_option`: for a group of N names every optionlist element must be
an N-tuple — mismatched arity is a `ValueError` raised eagerly at
registration; then `self.kwargs[name] = optionlist`. -/
def add_option {α : Type} (tf : TestFactory α) (name : OptKey)
    (optionlist : List (OptVal α)) : Except String (TestFactory α) :=
  match name with
  | OptKey.single _ =>
      Except.ok { tf with kwargs := dictInsert tf.kwargs name optionlist }
  | OptKey.group ns =>
      if optionlist.all (fun v =>
          match v with
          | OptVal.tuple vs => vs.length == ns.length
          | OptVal.single _ => false) then
        Except.ok { tf with kwargs := dictInsert tf.kwargs name optionlist }
      else
        Except.error "Mismatch between number of options and number of option values in group"

/-- `itertools.product(*lists)`: cartesian product in which the last list
varies fastest. -/
def listProduct {β : Type} : List (List β) → List (List β)
  | [] => [[]]
  | xs :: rest => xs.flatMap (fun x => (listProduct rest).map (fun c => x :: c))

/-- The `testoptions_split` preprocessing of `_generate_tests`: a single
name keeps its chosen value; a tuple of co-varying names is flattened back
into one named argument per name, zipping names with tuple elements. -/
def split_options {α : Type} : List OptKey → List (OptVal α) → List (String × OptVal α)
  | [], _ => []
  | _ :: _, [] => []
  | OptKey.single n :: ks, v :: vs => (n, v) :: split_options ks vs
  | OptKey.group ns :: ks, v :: vs =>
      (match v with
       | OptVal.tuple tv => ns.zip (tv.map OptVal.single)
       | OptVal.single _ => []) ++ split_options ks vs

/-- `_generate_tests`: enumerate the cartesian product of the registered
optionlists in registration order; the `index`-th element (counting from 0)
yields a `Test` named `prefix + test_func_name + postfix + "_%03d" % (index+1)`
with construction-order id `start_id + index`, paired with its flattened
named arguments.  (`pre`/`post` are the deprecated `prefix`/`postfix`
arguments, defaulting to the empty string.) -/
def _generate_tests {α : Type} (tf : TestFactory α) (pre post : String)
    (name : Option String) (module : String) (expect_fail : Bool)
    (expect_error : List ExcKind) (skip : Bool) (stage : Int) (start_id : Nat) :
    List (Test × List (String × OptVal α)) :=
  let test_func_name := name.getD tf.test_function
  (listProduct (tf.kwargs.map Prod.snd)).enum.map (fun iv =>
    let nm := pre ++ test_func_name ++ post ++ "_" ++ pad3 (iv.1 + 1)
    (⟨nm, module, expect_fail, expect_error, skip, stage, start_id + iv.1⟩,
     split_options (tf.kwargs.map Prod.fst) iv.2))

/-- The namespace of the calling module as `generate_tests` mutates it:
the set of bound attribute names (`glbs` keys), the `__cocotb_tests__`
registration list that `discover_tests` consumes, and a count of the
"Overwriting ..." error messages logged on name collisions. -/
structure ModuleNamespace where
  bound_names : List String
  cocotb_tests : List Test
  overwrite_errors : Nat
deriving DecidableEq, Repr

/-- `generate_tests`: for every generated test, log a (non-fatal) error if
its name is already bound in the module namespace, then append it to
`__cocotb_tests__` and bind `glbs[test.name] = test` — the append happens
regardless of the collision. -/
def generate_tests {α : Type} (tf : TestFactory α) (pre post : String)
    (name : Option String) (module : String) (expect_fail : Bool)
    (expect_error : List ExcKind) (skip : Bool) (stage : Int) (start_id : Nat)
    (glbs : ModuleNamespace) : ModuleNamespace :=
  (_generate_tests tf pre post name module expect_fail expect_error skip stage
      start_id).foldl
    (fun g tp =>
      let t := tp.1
      let g1 :=
        if g.bound_names.contains t.name then
          { g with overwrite_errors := g.overwrite_errors + 1 }
        else g
      { g1 with
        cocotb_tests := g1.cocotb_tests ++ [t],
        bound_names :=
          if g1.bound_names.contains t.name then g1.bound_names
          else g1.bound_names ++ [t.name] })
    glbs

/-! ### Helper lemmas about the manager operations -/

/-- The identifying key of an xunit record: testcase name and classname. -/
def xkey (r : XunitRecord) : String × String :=
  (r.name, r.classname)

/-- The identifying key of a test as it appears in its xunit records. -/
def tkey (t : Test) : String × String :=
  (t.name, t.module)

@[simp] theorem xkey_result_record (t : Test) (o : Outcome) (w s : Rat) :
    xkey (result_record t o w s) = tkey t := rfl

@[simp] theorem xkey_excluded_record (t : Test) :
    xkey (excluded_record t) = tkey t := rfl

@[simp] theorem xkey_skipped_record (t : Test) :
    xkey (skipped_record t) = tkey t := rfl

/-- During the teardown drain the latch is already set, so the
`self._tear_down()` at the end of `_record_result` is a no-op. -/
theorem record_result_eq_core_of_tearing_down (st : RMState) (t : Test)
    (o : Outcome) (w s : Rat) (h : st.tearing_down = true) :
    _record_result st t o w s = _record_result_core st t o w s := by
  unfold _record_result _tear_down
  have hflag : (_record_result_core st t o w s).tearing_down = true := h
  simp [hflag]

/-- Field-level description of the drain loop of `_tear_down`. -/
theorem drain_go_spec : ∀ (q : List Test) (st : RMState),
    (_drain_go q st).xunit_log
        = st.xunit_log ++ q.map (fun t => result_record t (Outcome.error ExcKind.simFailure) 0 0)
    ∧ (_drain_go q st).test_results
        = st.test_results ++ q.map (fun t => result_entry t (Outcome.error ExcKind.simFailure) 0 0)
    ∧ (_drain_go q st).test_queue = (match q with | [] => st.test_queue | _ :: _ => [])
    ∧ (_drain_go q st).executed = st.executed
    ∧ (_drain_go q st).initialized = st.initialized
    ∧ (_drain_go q st).tearing_down = st.tearing_down
    ∧ (_drain_go q st).summary_emitted = st.summary_emitted
    ∧ (_drain_go q st).xunit_written = st.xunit_written
    ∧ (_drain_go q st).stop_signaled = st.stop_signaled
  | [], st => by simp [_drain_go]
  | t :: rest, st => by
    have ih := drain_go_spec rest
      (_record_result_core { st with test_queue := rest } t
        (Outcome.error ExcKind.simFailure) 0 0)
    obtain ⟨h1, h2, h3, h4, h5, h6, h7, h8, h9⟩ := ih
    refine ⟨?_, ?_, ?_, ?_, ?_, ?_, ?_, ?_, ?_⟩ <;>
      simp_all [_drain_go, _record_result_core] <;>
      cases rest <;> simp_all

/-- The latch never goes back down. -/
theorem tear_down_flag (st : RMState) : (_tear_down st).tearing_down = true := by
  unfold _tear_down
  by_cases h : st.tearing_down
  · simp [h]
  · have hd := (drain_go_spec ({ st with tearing_down := true }).test_queue
      { st with tearing_down := true }).2.2.2.2.2.1
    simp only [h]
    simp only [Bool.false_eq_true, if_false, _tear_down_body, _log_test_summary]
    split <;> simp_all

/-- A latched teardown is a no-op. -/
theorem tear_down_of_tearing_down (st : RMState) (h : st.tearing_down = true) :
    _tear_down st = st := by
  simp [_tear_down, h]

/-- C3's "exactly once": the second and later teardown invocations do
nothing. -/
theorem tear_down_idem (st : RMState) :
    _tear_down (_tear_down st) = _tear_down st :=
  tear_down_of_tearing_down _ (tear_down_flag st)

/-- Field preservation of `_log_test_summary` (only the summary counter
can change). -/
theorem log_test_summary_fields (st : RMState) :
    (_log_test_summary st).test_queue = st.test_queue
    ∧ (_log_test_summary st).xunit_log = st.xunit_log
    ∧ (_log_test_summary st).test_results = st.test_results
    ∧ (_log_test_summary st).stop_signaled = st.stop_signaled
    ∧ (_log_test_summary st).xunit_written = st.xunit_written
    ∧ (_log_test_summary st).executed = st.executed
    ∧ (_log_test_summary st).initialized = st.initialized
    ∧ (_log_test_summary st).tearing_down = st.tearing_down
    ∧ (st.test_results ≠ [] →
        (_log_test_summary st).summary_emitted = st.summary_emitted + 1) := by
  unfold _log_test_summary
  split <;> simp_all

/-- Full effect of an unlatched teardown. -/
theorem tear_down_effects (st : RMState) (h : st.tearing_down = false) :
    (_tear_down st).test_queue = []
    ∧ (_tear_down st).xunit_log
        = st.xunit_log ++ st.test_queue.map (fun t => result_record t (Outcome.error ExcKind.simFailure) 0 0)
    ∧ (_tear_down st).test_results
        = st.test_results ++ st.test_queue.map (fun t => result_entry t (Outcome.error ExcKind.simFailure) 0 0)
    ∧ (_tear_down st).stop_signaled = st.stop_signaled + 1
    ∧ (_tear_down st).xunit_written = st.xunit_written + 1
    ∧ ((_tear_down st).test_results ≠ [] →
        (_tear_down st).summary_emitted = st.summary_emitted + 1)
    ∧ (_tear_down st).executed = st.executed
    ∧ (_tear_down st).initialized = st.initialized := by
  have hd := drain_go_spec ({ st with tearing_down := true }).test_queue
    { st with tearing_down := true }
  obtain ⟨h1, h2, h3, h4, h5, h6, h7, h8, h9⟩ := hd
  have hls := log_test_summary_fields
    (_drain_go ({ st with tearing_down := true }).test_queue { st with tearing_down := true })
  obtain ⟨g1, g2, g3, g4, g5, g6, g7, g8, g9⟩ := hls
  have hbody : _tear_down st = { _log_test_summary
      (_drain_go ({ st with tearing_down := true }).test_queue { st with tearing_down := true }) with
      xunit_written := (_log_test_summary
        (_drain_go ({ st with tearing_down := true }).test_queue
          { st with tearing_down := true })).xunit_written + 1,
      stop_signaled := (_log_test_summary
        (_drain_go ({ st with tearing_down := true }).test_queue
          { st with tearing_down := true })).stop_signaled + 1 } := by
    unfold _tear_down _tear_down_body
    simp [h]
  rw [hbody]
  refine ⟨?_, ?_, ?_, ?_, ?_, ?_, ?_, ?_⟩
  · show (_log_test_summary _).test_queue = []
    rw [g1, h3]
    cases hq : st.test_queue <;> simp [hq]
  · show (_log_test_summary _).xunit_log = _
    rw [g2, h1]
  · show (_log_test_summary _).test_results = _
    rw [g3, h2]
  · show (_log_test_summary _).stop_signaled + 1 = _
    rw [g4, h9]
  · show (_log_test_summary _).xunit_written + 1 = _
    rw [g5, h8]
  · intro hne
    show (_log_test_summary _).summary_emitted = _
    have hne' : (_drain_go ({ st with tearing_down := true }).test_queue
        { st with tearing_down := true }).test_results ≠ [] := by
      intro hcon
      exact hne (by show (_log_test_summary _).test_results = []; rw [g3, hcon])
    rw [g9 hne', h7]
  · show (_log_test_summary _).executed = _
    rw [g6, h4]
  · show (_log_test_summary _).initialized = _
    rw [g7, h5]

/-- Effect of `_record_result` on the observation-relevant fields, for an
arbitrary latch state.  The combined xunit/queue equation says: the log
gains exactly one record for `t` followed by (possibly, when a fatal
outcome drains the queue) one record per formerly queued test, the queue
losing exactly the drained tests. -/
theorem record_result_effects (st : RMState) (t : Test) (o : Outcome) (w s : Rat) :
    (_record_result st t o w s).executed = st.executed
    ∧ (_record_result st t o w s).initialized = st.initialized
    ∧ ((_record_result st t o w s).test_queue = st.test_queue
        ∨ (_record_result st t o w s).test_queue = [])
    ∧ (∃ l, (_record_result st t o w s).xunit_log = st.xunit_log ++ l)
    ∧ (_record_result st t o w s).xunit_log.map xkey
        ++ (_record_result st t o w s).test_queue.map tkey
      = st.xunit_log.map xkey ++ tkey t :: st.test_queue.map tkey := by
  unfold _record_result
  by_cases hf : (_score_test t o).2
  · simp only [hf, if_true]
    by_cases hl : st.tearing_down
    · rw [tear_down_of_tearing_down _ (by simp [_record_result_core, hl])]
      refine ⟨rfl, rfl, Or.inl rfl,
        ⟨[result_record t o w s], rfl⟩, ?_⟩
      simp [_record_result_core]
    · have he := tear_down_effects (_record_result_core st t o w s)
        (by simp only [_record_result_core]; simp_all)
      obtain ⟨h1, h2, h3, h4, h5, h6, h7, h8⟩ := he
      refine ⟨h7.trans rfl, h8.trans rfl, Or.inr h1,
        ⟨[result_record t o w s] ++ st.test_queue.map
            (fun u => result_record u (Outcome.error ExcKind.simFailure) 0 0),
          by rw [h2]; simp [_record_result_core]⟩, ?_⟩
      rw [h1, h2]
      simp [_record_result_core, List.map_map, Function.comp]
  · simp only [hf, if_false]
    refine ⟨rfl, rfl, Or.inl rfl, ⟨[result_record t o w s], rfl⟩, ?_⟩
    simp [_record_result_core]

/-- Effect of `_init_test`: the test is appended to the initialization log;
the xunit log gains one record for it unless a task was produced (in which
case the record comes later from `_handle_result`); a fatal synchronous
failure may drain the queue. -/
theorem init_test_effects (o : Oracle) (st : RMState) (t : Test) :
    (_init_test o st t).1.initialized = st.initialized ++ [t]
    ∧ (_init_test o st t).1.executed = st.executed
    ∧ ((_init_test o st t).1.test_queue = st.test_queue
        ∨ (_init_test o st t).1.test_queue = [])
    ∧ (∃ l, (_init_test o st t).1.xunit_log = st.xunit_log ++ l)
    ∧ (_init_test o st t).1.xunit_log.map xkey
        ++ (_init_test o st t).1.test_queue.map tkey
      = st.xunit_log.map xkey
        ++ (if (_init_test o st t).2 then ([] : List (String × String)) else [tkey t])
        ++ st.test_queue.map tkey
    ∧ ((_init_test o st t).2 = true →
        (_init_test o st t).1.xunit_log = st.xunit_log
        ∧ (_init_test o st t).1.test_queue = st.test_queue) := by
  by_cases hs : t.skip
  · simp [_init_test, hs, _record_test_skipped]
  · cases hio : o.initOutcome t with
    | none => simp [_init_test, hs, hio]
    | some e =>
        have hr := record_result_effects { st with initialized := st.initialized ++ [t] }
          t (Outcome.error e) 0 0
        obtain ⟨h1, h2, h3, h4, h5⟩ := hr
        simp only [_init_test, hs, Bool.false_eq_true, if_false, hio]
        exact ⟨h2, h1, h3, h4, by simpa using h5, by simp⟩

theorem execute_go_eq_nil (o : Oracle) (fuel : Nat) (st : RMState)
    (h : st.test_queue = []) : _execute_go o fuel st = _tear_down st := by
  unfold _execute_go
  split
  · rfl
  · simp_all
  · simp_all

theorem execute_go_eq_cons (o : Oracle) (fuel' : Nat) (st : RMState)
    (t : Test) (rest : List Test) (h : st.test_queue = t :: rest) :
    _execute_go o (fuel' + 1) st =
      (if (_init_test o { st with test_queue := rest } t).2 then
        _execute_go o fuel'
          (_record_result
            { (_init_test o { st with test_queue := rest } t).1 with
              executed := (_init_test o { st with test_queue := rest } t).1.executed ++ [t] }
            t (o.runOutcome t) (o.wallTime t) (o.simTime t))
      else _execute_go o fuel' (_init_test o { st with test_queue := rest } t).1) := by
  conv_lhs => unfold _execute_go
  split
  · simp_all
  · simp_all
  · rename_i t' rest' fuel'' heq hfuel
    rw [h] at heq
    cases heq
    cases hfuel
    rfl

/-- Combined effect of the whole `_execute` loop, by induction on the fuel
bound: the xunit log gains exactly one record per queued test, in queue
order; the log is only ever appended to; the executed and initialized logs
gain subsequences of the queue, in queue order. -/
theorem execute_go_effects (o : Oracle) :
    ∀ (fuel : Nat) (st : RMState), st.test_queue.length ≤ fuel →
    ((_execute_go o fuel st).xunit_log.map xkey
        = st.xunit_log.map xkey ++ st.test_queue.map tkey)
    ∧ (∃ l, (_execute_go o fuel st).xunit_log = st.xunit_log ++ l)
    ∧ (∃ le, (_execute_go o fuel st).executed = st.executed ++ le
        ∧ List.Sublist le st.test_queue)
    ∧ (∃ li, (_execute_go o fuel st).initialized = st.initialized ++ li
        ∧ List.Sublist li st.test_queue) := by
  intro fuel
  induction fuel with
  | zero =>
      intro st hlen
      have h : st.test_queue = [] := List.length_eq_zero.mp (Nat.le_zero.mp hlen)
      rw [execute_go_eq_nil o 0 st h]
      by_cases hl : st.tearing_down
      · rw [tear_down_of_tearing_down st hl]
        exact ⟨by simp [h], ⟨[], by simp⟩, ⟨[], by simp [h]⟩, ⟨[], by simp [h]⟩⟩
      · obtain ⟨g1, g2, g3, g4, g5, g6, g7, g8⟩ :=
          tear_down_effects st (Bool.not_eq_true _ ▸ hl)
        refine ⟨by rw [g2, h]; simp, ⟨_, g2⟩, ⟨[], by simp [g7, h]⟩, ⟨[], by simp [g8, h]⟩⟩
  | succ fuel' ih =>
      intro st hlen
      cases hq : st.test_queue with
      | nil =>
          rw [execute_go_eq_nil o _ st hq]
          by_cases hl : st.tearing_down
          · rw [tear_down_of_tearing_down st hl]
            exact ⟨by simp, ⟨[], by simp⟩, ⟨[], by simp⟩, ⟨[], by simp⟩⟩
          · obtain ⟨g1, g2, g3, g4, g5, g6, g7, g8⟩ :=
              tear_down_effects st (Bool.not_eq_true _ ▸ hl)
            refine ⟨by rw [g2, hq]; simp, ⟨_, g2⟩, ⟨[], by simp [g7]⟩, ⟨[], by simp [g8]⟩⟩
      | cons t rest =>
          rw [execute_go_eq_cons o fuel' st t rest hq]
          have hlen' : rest.length ≤ fuel' := by
            rw [hq] at hlen
            simpa using hlen
          obtain ⟨i1, i2, i3, i4, i5, i6⟩ :=
            init_test_effects o { st with test_queue := rest } t
          by_cases hp : (_init_test o { st with test_queue := rest } t).2
          · -- a task was produced: the test is executed, its result recorded
            simp only [hp, if_true]
            obtain ⟨ix, iq⟩ := i6 hp
            set stI := (_init_test o { st with test_queue := rest } t).1 with hstI
            set stE := { stI with executed := stI.executed ++ [t] } with hstE
            have hEx : stE.xunit_log = st.xunit_log := ix
            have hEq : stE.test_queue = rest := iq
            obtain ⟨r1, r2, r3, r4, r5⟩ :=
              record_result_effects stE t (o.runOutcome t) (o.wallTime t) (o.simTime t)
            set stR := _record_result stE t (o.runOutcome t) (o.wallTime t) (o.simTime t)
              with hstR
            have hqR : stR.test_queue.length ≤ fuel' := by
              rcases r3 with hr | hr
              · rw [hr, hEq]; exact hlen'
              · rw [hr]; exact Nat.zero_le _
            obtain ⟨e1, e2, e3, e4⟩ := ih stR hqR
            have hcomb : stR.xunit_log.map xkey ++ stR.test_queue.map tkey
                = st.xunit_log.map xkey ++ tkey t :: rest.map tkey := by
              rw [r5, hEx, hEq]
            have hRqueue : stR.test_queue = rest ∨ stR.test_queue = [] := by
              rcases r3 with hr | hr
              · exact Or.inl (hr.trans hEq)
              · exact Or.inr hr
            refine ⟨?_, ?_, ?_, ?_⟩
            · -- xunit keys: one record for t, then one per remaining queue entry
              rw [e1, hcomb]
              simp
            · obtain ⟨l2, hl2⟩ := e2
              obtain ⟨l1, hl1⟩ := r4
              exact ⟨l1 ++ l2, by rw [hl2, hl1, hEx, List.append_assoc]⟩
            · obtain ⟨le', hle', hsub⟩ := e3
              have hRex : stR.executed = st.executed ++ [t] := by
                rw [r1, hstE]
                show stI.executed ++ [t] = _
                rw [i2]
              refine ⟨t :: le', ?_, ?_⟩
              · rw [hle', hRex, List.append_assoc]
                rfl
              · refine List.Sublist.cons₂ t ?_
                rcases hRqueue with hr | hr
                · rwa [hr] at hsub
                · rw [hr] at hsub
                  rw [List.sublist_nil.mp hsub]
                  exact List.nil_sublist rest
            · obtain ⟨li', hli', hsub⟩ := e4
              have hRin : stR.initialized = st.initialized ++ [t] := by
                rw [r2, hstE]
                show stI.initialized = _
                rw [i1]
              refine ⟨t :: li', ?_, ?_⟩
              · rw [hli', hRin, List.append_assoc]
                rfl
              · refine List.Sublist.cons₂ t ?_
                rcases hRqueue with hr | hr
                · rwa [hr] at hsub
                · rw [hr] at hsub
                  rw [List.sublist_nil.mp hsub]
                  exact List.nil_sublist rest
          · -- no task (skip or synchronous failure): already recorded
            simp only [hp, Bool.false_eq_true, if_false]
            set stI := (_init_test o { st with test_queue := rest } t).1 with hstI
            have hIqueue : stI.test_queue = rest ∨ stI.test_queue = [] := i3
            have hqI : stI.test_queue.length ≤ fuel' := by
              rcases hIqueue with hr | hr
              · rw [hr]; exact hlen'
              · rw [hr]; exact Nat.zero_le _
            obtain ⟨e1, e2, e3, e4⟩ := ih stI hqI
            have hp' : (_init_test o { st with test_queue := rest } t).2 = false := by
              revert hp
              cases (_init_test o { st with test_queue := rest } t).2 <;> simp
            have hcomb : stI.xunit_log.map xkey ++ stI.test_queue.map tkey
                = st.xunit_log.map xkey ++ tkey t :: rest.map tkey := by
              have h5 := i5
              rw [hp'] at h5
              simpa using h5
            refine ⟨?_, ?_, ?_, ?_⟩
            · rw [e1, hcomb]
              simp
            · obtain ⟨l2, hl2⟩ := e2
              obtain ⟨l1, hl1⟩ := i4
              exact ⟨l1 ++ l2, by rw [hl2, hl1, List.append_assoc]⟩
            · obtain ⟨le', hle', hsub⟩ := e3
              refine ⟨le', by rw [hle', i2], ?_⟩
              refine List.Sublist.cons t ?_
              rcases hIqueue with hr | hr
              · rwa [hr] at hsub
              · rw [hr] at hsub
                rw [List.sublist_nil.mp hsub]
                exact List.nil_sublist rest
            · obtain ⟨li', hli', hsub⟩ := e4
              refine ⟨t :: li', ?_, ?_⟩
              · rw [hli', i1, List.append_assoc]
                rfl
              · refine List.Sublist.cons₂ t ?_
                rcases hIqueue with hr | hr
                · rwa [hr] at hsub
                · rw [hr] at hsub
                  rw [List.sublist_nil.mp hsub]
                  exact List.nil_sublist rest

/-- Recording the excluded tests only appends their xunit records. -/
theorem foldl_record_excluded_spec (l : List Test) : ∀ st : RMState,
    (l.foldl _record_test_excluded st).xunit_log = st.xunit_log ++ l.map excluded_record
    ∧ (l.foldl _record_test_excluded st).test_queue = st.test_queue
    ∧ (l.foldl _record_test_excluded st).executed = st.executed
    ∧ (l.foldl _record_test_excluded st).initialized = st.initialized := by
  induction l with
  | nil => intro st; simp
  | cons t rest ih =>
      intro st
      obtain ⟨h1, h2, h3, h4⟩ := ih (_record_test_excluded st t)
      refine ⟨?_, ?_, ?_, ?_⟩ <;> simp_all [_record_test_excluded]

/-- Combined effect of a whole started regression: the xunit log gains one
record per excluded test (in discovery order) followed by one record per
queued test in sorted `(stage, _id)` order; the log is append-only; the
executed and initialized logs gain subsequences of the sorted queue. -/
theorem start_regression_effects (o : Oracle) (st : RMState) :
    ((start_regression o st).xunit_log.map xkey
        = st.xunit_log.map xkey ++ st.filtered_tests.map tkey
          ++ (List.insertionSort testLE st.test_queue).map tkey)
    ∧ (∃ l, (start_regression o st).xunit_log
        = st.xunit_log ++ st.filtered_tests.map excluded_record ++ l)
    ∧ (∃ le, (start_regression o st).executed = st.executed ++ le
        ∧ List.Sublist le (List.insertionSort testLE st.test_queue))
    ∧ (∃ li, (start_regression o st).initialized = st.initialized ++ li
        ∧ List.Sublist li (List.insertionSort testLE st.test_queue)) := by
  obtain ⟨f1, f2, f3, f4⟩ := foldl_record_excluded_spec st.filtered_tests
    { st with test_queue := List.insertionSort testLE st.test_queue,
              ntests := (List.insertionSort testLE st.test_queue).length, count := 1 }
  set st2 := st.filtered_tests.foldl _record_test_excluded
    { st with test_queue := List.insertionSort testLE st.test_queue,
              ntests := (List.insertionSort testLE st.test_queue).length, count := 1 }
    with hst2
  obtain ⟨e1, e2, e3, e4⟩ := execute_go_effects o st2.test_queue.length st2 le_rfl
  have hrun : start_regression o st = _execute_go o st2.test_queue.length st2 := rfl
  have hq2 : st2.test_queue = List.insertionSort testLE st.test_queue := f2
  refine ⟨?_, ?_, ?_, ?_⟩
  · rw [hrun, e1, f1, hq2]
    simp [List.map_map, Function.comp]
  · obtain ⟨l, hl⟩ := e2
    refine ⟨l, ?_⟩
    rw [hrun, hl, f1]
  · obtain ⟨le, hle, hsub⟩ := e3
    rw [hq2] at hsub
    exact ⟨le, by rw [hrun, hle, f3], hsub⟩
  · obtain ⟨li, hli, hsub⟩ := e4
    rw [hq2] at hsub
    exact ⟨li, by rw [hrun, hli, f4], hsub⟩

/-- The strict key order is irreflexive. -/
theorem keyLT_irrefl (a : Int × Nat) : ¬keyLT a a := by
  simp [keyLT]

/-- The strict key order is asymmetric. -/
theorem keyLT_asymm (a b : Int × Nat) : keyLT a b → keyLT b a → False := by
  unfold keyLT
  omega

/-- `testLE` plus distinct ids yields the strict key order. -/
theorem testLE_ne_id_keyLT (a b : Test) (h : testLE a b) (hne : a._id ≠ b._id) :
    keyLT (test_sort_key a) (test_sort_key b) := by
  unfold testLE keyLE at h
  unfold keyLT
  unfold test_sort_key at *
  simp only [] at *
  omega

/-- With pairwise distinct ids, the sorted queue is strictly increasing in
the `(stage, _id)` key. -/
theorem sorted_pairwise_keyLT (q : List Test) (h : (q.map Test._id).Nodup) :
    (List.insertionSort testLE q).Pairwise
      (fun a b => keyLT (test_sort_key a) (test_sort_key b)) := by
  have hs : (List.insertionSort testLE q).Sorted testLE :=
    List.sorted_insertionSort testLE q
  have hperm : (List.insertionSort testLE q).Perm q :=
    List.perm_insertionSort testLE q
  have hnodup : ((List.insertionSort testLE q).map Test._id).Nodup :=
    (List.Perm.nodup_iff (List.Perm.map Test._id hperm)).mpr h
  have hpair_ne : (List.insertionSort testLE q).Pairwise (fun a b => a._id ≠ b._id) :=
    List.pairwise_map.mp hnodup
  refine List.pairwise_iff_get.mpr ?_
  intro i j hij
  exact testLE_ne_id_keyLT _ _ (hs.rel_get_of_lt hij)
    (List.pairwise_iff_get.mp hpair_ne i j hij)

/-- C2.  In a started regression with distinct construction ids, test `T1`
executes before `T2` exactly when `(stage1, id1) < (stage2, id2)`
lexicographically — the executed log (submission order to the scheduler) is
strictly sorted by the `(stage, _id)` key, ids being the discovery-order
tie-break within a stage. -/
theorem tests_execute_in_stage_id_order (o : Oracle) (st : RMState)
    (hids : (st.test_queue.map Test._id).Nodup)
    (hexec : st.executed = []) :
    ∀ i j : Fin (start_regression o st).executed.length,
      i < j ↔ keyLT (test_sort_key ((start_regression o st).executed.get i))
                    (test_sort_key ((start_regression o st).executed.get j)) := by
  obtain ⟨_, _, ⟨le, hle, hsub⟩, _⟩ := start_regression_effects o st
  have hpair : le.Pairwise (fun a b => keyLT (test_sort_key a) (test_sort_key b)) :=
    List.Pairwise.sublist hsub (sorted_pairwise_keyLT st.test_queue hids)
  have hpair' : (start_regression o st).executed.Pairwise
      (fun a b => keyLT (test_sort_key a) (test_sort_key b)) := by
    rw [hle, hexec, List.nil_append]
    exact hpair
  intro i j
  constructor
  · intro hij
    exact List.pairwise_iff_get.mp hpair' i j hij
  · intro hk
    rcases lt_trichotomy i j with h | h | h
    · exact h
    · subst h
      exact absurd hk (keyLT_irrefl _)
    · exact absurd (List.pairwise_iff_get.mp hpair' j i h)
        (fun hk' => keyLT_asymm _ _ hk hk')

/-- C8.  The xunit result log is append-only and, over a whole regression,
gains exactly one record per test — identified by its `(name, classname)`
key — first the excluded tests in discovery order, then every queued test
(executed, skipped or mass-failed) in execution order, i.e. sorted
`(stage, _id)` order.  Records are values appended to the log and never
modified afterwards. -/
theorem result_log_one_record_per_test (o : Oracle) (st : RMState) :
    ((start_regression o st).xunit_log.map xkey
      = st.xunit_log.map xkey ++ st.filtered_tests.map tkey
        ++ (List.insertionSort testLE st.test_queue).map tkey)
    ∧ ∃ l, (start_regression o st).xunit_log = st.xunit_log ++ l := by
  obtain ⟨h1, ⟨l, hl⟩, _, _⟩ := start_regression_effects o st
  exact ⟨h1, ⟨st.filtered_tests.map excluded_record ++ l,
    by rw [hl, List.append_assoc]⟩⟩

/-- C5.  A test excluded by filtering (fullname matching no pattern) is
recorded as a zero-duration excluded result — zero wall time and zero
simulated time — and never reaches `_init_test` nor submission to the
scheduler. -/
theorem excluded_test_zero_record_never_runs (o : Oracle) (st : RMState)
    (patterns : List (String → Bool)) (t : Test)
    (ht : t ∈ (filter_tests patterns st).filtered_tests)
    (hinit : st.initialized = []) (hexec : st.executed = []) :
    excluded_record t ∈ (start_regression o (filter_tests patterns st)).xunit_log
    ∧ t ∉ (start_regression o (filter_tests patterns st)).initialized
    ∧ t ∉ (start_regression o (filter_tests patterns st)).executed := by
  obtain ⟨_, ⟨l, hl⟩, ⟨le, hle, hsuble⟩, ⟨li, hli, hsubli⟩⟩ :=
    start_regression_effects o (filter_tests patterns st)
  have hmatch : (patterns.any (fun p => p t.fullname)) = false := by
    have := (List.mem_filter.mp ht).2
    simpa using this
  have hnotq : t ∉ (filter_tests patterns st).test_queue := by
    intro hmem
    have := (List.mem_filter.mp hmem).2
    rw [hmatch] at this
    cases this
  refine ⟨?_, ?_, ?_⟩
  · rw [hl]
    refine List.mem_append_left _ (List.mem_append_right _ ?_)
    exact List.mem_map_of_mem excluded_record ht
  · intro hmem
    rw [hli] at hmem
    have hfi : (filter_tests patterns st).initialized = [] := hinit
    rw [hfi, List.nil_append] at hmem
    exact hnotq ((List.perm_insertionSort testLE _).subset (hsubli.subset hmem))
  · intro hmem
    rw [hle] at hmem
    have hfe : (filter_tests patterns st).executed = [] := hexec
    rw [hfe, List.nil_append] at hmem
    exact hnotq ((List.perm_insertionSort testLE _).subset (hsuble.subset hmem))

/-! ### Concrete fixtures for witnesses and counterexamples -/

/-- A benign oracle: every body initializes, every test completes
successfully and instantly; the hash is the string length. -/
def oracleW : Oracle :=
  { initOutcome := fun _ => none,
    runOutcome := fun _ => Outcome.value,
    wallTime := fun _ => 0,
    simTime := fun _ => 0,
    hash := fun s => s.length }

/-- Sample test `m.a`, id 0. -/
def tA : Test := ⟨"a", "m", false, [], false, 0, 0⟩

/-- Sample test `m.b`, id 1. -/
def tB : Test := ⟨"b", "m", false, [], false, 0, 1⟩

/-- Sample test `m.ab`, id 2 (fullname of a different length than `m.a`). -/
def tC : Test := ⟨"ab", "m", false, [], false, 0, 2⟩

/-- A fresh manager holding `tB` then `tA` (registration order opposite to
id order). -/
def stW : RMState := { test_queue := [tB, tA] }

/-- A pattern matching only fullname `m.a`. -/
def pW : String → Bool := fun s => s == "m.a"

/-- Witness for C2: on a two-test regression registered in the order
`tB, tA`, position 0 of the executed log precedes position 1 exactly when
its `(stage, id)` key is smaller. -/
theorem tests_execute_in_stage_id_order_witness :
    ((⟨0, by decide⟩ : Fin (start_regression oracleW stW).executed.length)
        < ⟨1, by decide⟩) ↔
      keyLT (test_sort_key ((start_regression oracleW stW).executed.get ⟨0, by decide⟩))
            (test_sort_key ((start_regression oracleW stW).executed.get ⟨1, by decide⟩)) :=
  tests_execute_in_stage_id_order oracleW stW (by decide) rfl
    ⟨0, by decide⟩ ⟨1, by decide⟩

/-- Witness for C5: `tB` matches no pattern, is recorded with zero
durations, and is neither initialized nor executed. -/
theorem excluded_test_zero_record_never_runs_witness :
    excluded_record tB ∈ (start_regression oracleW (filter_tests [pW] stW)).xunit_log
    ∧ tB ∉ (start_regression oracleW (filter_tests [pW] stW)).initialized
    ∧ tB ∉ (start_regression oracleW (filter_tests [pW] stW)).executed :=
  excluded_test_zero_record_never_runs oracleW stW [pW] tB (by decide) rfl rfl

/-- C4.  The per-test seed set by `_init_test` is
`RANDOM_SEED + sha1_int(fullname)`: it depends only on the global seed and
the test's fullname (so it is identical across runs and across different
surrounding test sets), and two tests whose fullnames hash differently get
different seeds under the same global seed. -/
theorem per_test_seed_deterministic (o : Oracle) (st1 st2 : RMState) (t1 t2 : Test)
    (h1 : t1.skip = false) (h2 : t2.skip = false)
    (hi1 : o.initOutcome t1 = none) (hi2 : o.initOutcome t2 = none)
    (hseed : st1.random_seed = st2.random_seed) :
    ((_init_test o st1 t1).1.rng_seed
        = some (derive_seed o.hash st1.random_seed t1.fullname))
    ∧ (t1.fullname = t2.fullname →
        (_init_test o st1 t1).1.rng_seed = (_init_test o st2 t2).1.rng_seed)
    ∧ (o.hash t1.fullname ≠ o.hash t2.fullname →
        (_init_test o st1 t1).1.rng_seed ≠ (_init_test o st2 t2).1.rng_seed) := by
  have e1 : (_init_test o st1 t1).1.rng_seed
      = some (derive_seed o.hash st1.random_seed t1.fullname) := by
    simp [_init_test, h1, hi1]
  have e2 : (_init_test o st2 t2).1.rng_seed
      = some (derive_seed o.hash st2.random_seed t2.fullname) := by
    simp [_init_test, h2, hi2]
  refine ⟨e1, ?_, ?_⟩
  · intro hf
    rw [e1, e2, hseed, hf]
  · intro hne
    rw [e1, e2, hseed]
    intro hcon
    apply hne
    have hinj := Option.some.inj hcon
    unfold derive_seed at hinj
    omega

/-- Witness for C4: concrete seeds for `m.a` (twice, from managers in
different states) and for `m.ab`. -/
theorem per_test_seed_deterministic_witness :
    ((_init_test oracleW stW tA).1.rng_seed
        = some (derive_seed oracleW.hash stW.random_seed tA.fullname))
    ∧ (_init_test oracleW stW tA).1.rng_seed
        = (_init_test oracleW (filter_tests [pW] stW) tA).1.rng_seed
    ∧ (_init_test oracleW stW tA).1.rng_seed
        ≠ (_init_test oracleW stW tC).1.rng_seed :=
  ⟨(per_test_seed_deterministic oracleW stW stW tA tC rfl rfl rfl rfl rfl).1,
   (per_test_seed_deterministic oracleW stW (filter_tests [pW] stW) tA tA
      rfl rfl rfl rfl rfl).2.1 rfl,
   (per_test_seed_deterministic oracleW stW stW tA tC rfl rfl rfl rfl rfl).2.2
      (by decide)⟩

/-- C3 (amended).  An unlatched teardown drains the queue, recording every
remaining test with a fatal `SimFailure` outcome and zero durations —
classified FAIL whenever the test declared no `expect_error` kind matching
`SimFailure` (a matching declaration is classified PASS, see the
counterexample) — emits the summary once, writes the report once, signals
the simulator stop once, and a second teardown is a no-op.  Moreover a
fatal (`sim_failed`) outcome recorded for any test triggers exactly this
teardown regardless of its pass/fail classification. -/
theorem fatal_failure_single_teardown (st : RMState) (h : st.tearing_down = false) :
    ((_tear_down st).test_queue = []
    ∧ (_tear_down st).test_results
        = st.test_results
          ++ st.test_queue.map (fun t => result_entry t (Outcome.error ExcKind.simFailure) 0 0)
    ∧ (_tear_down st).stop_signaled = st.stop_signaled + 1
    ∧ (_tear_down st).xunit_written = st.xunit_written + 1
    ∧ ((_tear_down st).test_results ≠ [] →
        (_tear_down st).summary_emitted = st.summary_emitted + 1)
    ∧ _tear_down (_tear_down st) = _tear_down st)
    ∧ (∀ t : Test, isInstanceAny ExcKind.simFailure t.expect_error = false →
        (result_entry t (Outcome.error ExcKind.simFailure) 0 0).pass? = some false)
    ∧ (∀ (t : Test) (o : Outcome) (w s : Rat), (_score_test t o).2 = true →
        (_record_result st t o w s).stop_signaled = st.stop_signaled + 1
        ∧ (_record_result st t o w s).tearing_down = true) := by
  obtain ⟨g1, g2, g3, g4, g5, g6, g7, g8⟩ := tear_down_effects st h
  refine ⟨⟨g1, g3, g4, g5, g6, tear_down_idem st⟩, ?_, ?_⟩
  · intro t hm
    simp [result_entry, _score_test, isInstance, hm]
  · intro t o w s hf
    have hcore : (_record_result_core st t o w s).tearing_down = false := h
    obtain ⟨c1, c2, c3, c4, c5, c6, c7, c8⟩ :=
      tear_down_effects (_record_result_core st t o w s) hcore
    constructor
    · show (_record_result st t o w s).stop_signaled = _
      unfold _record_result
      simp only [hf, if_true]
      rw [c4]
      rfl
    · show (_record_result st t o w s).tearing_down = true
      unfold _record_result
      simp only [hf, if_true]
      exact tear_down_flag _

/-- A test that declared `expect_error=(SimFailure,)` and is still queued at
teardown time: the drained record is classified PASS (and counted in
`passed`), not as a failure — refuting the claim that drained tests are
always force-recorded as fatal *failures*. -/
def tSF : Test := ⟨"sf", "m", false, [ExcKind.simFailure], false, 0, 0⟩

/-- A manager about to tear down with `tSF` still queued. -/
def stSF : RMState := { test_queue := [tSF] }

/-- Counterexample for C3 as stated: tearing down with `tSF` queued records
it with `pass=True` and increments `passed`, not `failures`. -/
theorem teardown_drained_test_recorded_pass :
    ((_tear_down stSF).test_results.map (fun r => r.pass?)) = [some true]
    ∧ (_tear_down stSF).passed = 1
    ∧ (_tear_down stSF).failures = 0 := by
  decide

/-- Witness for C3 (amended), at a concrete one-test state. -/
theorem fatal_failure_single_teardown_witness :
    (_tear_down stW).stop_signaled = stW.stop_signaled + 1
    ∧ _tear_down (_tear_down stW) = _tear_down stW
    ∧ (result_entry tA (Outcome.error ExcKind.simFailure) 0 0).pass? = some false
    ∧ (_record_result stW tA (Outcome.error ExcKind.simFailure) 0 0).tearing_down = true :=
  ⟨(fatal_failure_single_teardown stW rfl).1.2.2.1,
   (fatal_failure_single_teardown stW rfl).1.2.2.2.2.2,
   (fatal_failure_single_teardown stW rfl).2.1 tA (by decide),
   ((fatal_failure_single_teardown stW rfl).2.2 tA
      (Outcome.error ExcKind.simFailure) 0 0 (by decide)).2⟩

/-- A module exporting an empty test collection. -/
def mEmpty : PyModule := ⟨some []⟩

/-- A module exporting one test. -/
def mOne : PyModule := ⟨some [tA]⟩

/-- Counterexample for C7 as stated: `mEmpty` exports no tests, yet
discovery over `[mEmpty, mOne]` succeeds — the per-module error fires only
when the `__cocotb_tests__` attribute is missing altogether, not when the
exported collection is empty. -/
theorem discovery_tolerates_empty_module :
    (discover_tests ({} : RMState) [mEmpty, mOne]).isOk = true
    ∧ mEmpty.cocotb_tests = some [] := by
  decide

/-- C7 (amended).  Discovery fails with an error when a referenced module
does not export a test collection (missing `__cocotb_tests__` attribute —
a module exporting an *empty* collection does not by itself fail), and
fails with `NoTestsFound` when, after processing all referenced modules,
the queue is still empty.  Both errors are raised by `discover_tests`,
which runs at setup before `start_regression`, so no test executes. -/
theorem discovery_errors_amended (st : RMState) (mods : List PyModule) :
    ((∃ m ∈ mods, m.cocotb_tests = none) →
      discover_tests st mods = Except.error DiscoveryError.noTestsInModule)
    ∧ (st.test_queue = [] → (∀ m ∈ mods, m.cocotb_tests = some []) →
      discover_tests st mods = Except.error DiscoveryError.noTestsFound) := by
  induction mods generalizing st with
  | nil =>
      constructor
      · rintro ⟨m, hm, _⟩
        cases hm
      · intro hq _
        simp [discover_tests, hq]
  | cons m rest ih =>
      constructor
      · rintro ⟨m', hm', hnone⟩
        rcases List.mem_cons.mp hm' with rfl | hmem
        · simp [discover_tests, hnone]
        · cases hmt : m.cocotb_tests with
          | none => simp [discover_tests, hmt]
          | some ts =>
              simp only [discover_tests, hmt]
              exact (ih _).1 ⟨m', hmem, hnone⟩
      · intro hq hall
        have hm := hall m (List.mem_cons_self m rest)
        simp only [discover_tests, hm]
        exact (ih st).2 hq (fun m' hm' => hall m' (List.mem_cons_of_mem m hm'))

/-- Witness for C7 (amended): a module without the attribute errors; a run
over only empty collections errors with nothing found. -/
theorem discovery_errors_amended_witness :
    discover_tests ({} : RMState) [(⟨none⟩ : PyModule)]
        = Except.error DiscoveryError.noTestsInModule
    ∧ discover_tests ({} : RMState) [mEmpty]
        = Except.error DiscoveryError.noTestsFound :=
  ⟨(discovery_errors_amended ({} : RMState) [(⟨none⟩ : PyModule)]).1
      ⟨⟨none⟩, List.mem_singleton.mpr rfl, rfl⟩,
   (discovery_errors_amended ({} : RMState) [mEmpty]).2 rfl
      (fun m hm => by rw [List.mem_singleton.mp hm]; rfl)⟩

/-- The factory of C6's scenario: options `a: [1,2]` then `b: [3,4]`,
registered in that order through `add_option`. -/
def demoFactory : Except String (TestFactory Nat) := do
  let tf ← add_option ⟨"run_test", []⟩ (OptKey.single "a")
    [OptVal.single 1, OptVal.single 2]
  add_option tf (OptKey.single "b") [OptVal.single 3, OptVal.single 4]

/-- C6.  `generate_tests` on options `{a: [1,2], b: [3,4]}` registered in
that order yields exactly 4 tests, in cartesian-product order with the
last-registered option varying fastest, named with zero-padded suffixes
`_001` through `_004`. -/
theorem factory_cartesian_product_order :
    demoFactory.map (fun tf =>
      (_generate_tests tf "" "" none "mod" false [] false 0 0).map
        (fun p => (p.1.name, p.2)))
    = Except.ok
        [("run_test_001", [("a", OptVal.single 1), ("b", OptVal.single 3)]),
         ("run_test_002", [("a", OptVal.single 1), ("b", OptVal.single 4)]),
         ("run_test_003", [("a", OptVal.single 2), ("b", OptVal.single 3)]),
         ("run_test_004", [("a", OptVal.single 2), ("b", OptVal.single 4)])] := by
  rfl

/-- The earlier registered test whose name the factory will collide with. -/
def tEarlier : Test := ⟨"test_fn_001", "mod", false, [], false, 0, 0⟩

/-- Module globals already binding `test_fn_001` (with `tEarlier` present in
`__cocotb_tests__`) before `generate_tests` runs. -/
def glbs9 : ModuleNamespace := ⟨["test_fn", "test_fn_001"], [tEarlier], 0⟩

/-- A factory generating exactly one test named `test_fn_001`. -/
def tf9 : TestFactory Nat := ⟨"test_fn", [(OptKey.single "a", [OptVal.single 1])]⟩

/-- The module namespace after the colliding `generate_tests` call. -/
def glbs9' : ModuleNamespace :=
  generate_tests tf9 "" "" none "mod" false [] false 0 1 glbs9

/-- C9, evaluated at the failing input: the collision logs the non-fatal
"Overwriting" error, but the new test is *appended* to `__cocotb_tests__`
next to the earlier one — only the module attribute binding is overwritten.
`discover_tests` consumes `__cocotb_tests__`, so both tests register and
both execute: the earlier test (id 0) still runs, contradicting the claim
(and the code's own log message) that it does not. -/
theorem name_collision_earlier_test_still_runs :
    glbs9'.overwrite_errors = 1
    ∧ glbs9'.cocotb_tests.map Test.name = ["test_fn_001", "test_fn_001"]
    ∧ (discover_tests ({} : RMState) [⟨some glbs9'.cocotb_tests⟩]).toOption.map
        (fun st => (start_regression oracleW st).executed.map Test._id)
      = some [0, 1] := by
  refine ⟨rfl, rfl, rfl⟩

end Cocotb
